import Mathlib

/-!
Verification of the NIF container codec (rust-nif, src/lib.rs, module nif).

Shallow embedding conventions:
* Machine integers (u8, u16, u32) are `Nat` values; theorems carry explicit
  bounds, and the places where the Rust arithmetic can wrap carry an explicit
  `% 2^16` or `% 2^32`.
* The `f32` field `frame_rate` is modeled by its raw IEEE-754 bit pattern
  (a 32-bit `Nat`): the code never computes with it, it only copies it through
  `to_be_bytes` / `from_be_bytes`, which are bit-pattern conversions.
* Fallible code is modeled with `Option` / `Except`: a Rust panic
  (slice indexing out of range, `unwrap` on a short read, an explicit panic)
  becomes `none` / `.error`.
* Files are `List Nat` byte lists (each element < 256 where it matters).
* The gzip compressor / decompressor come from the external crate `flate2`,
  not from this repository; they are modeled as abstract stream transformers
  `comp decomp : List Nat → List Nat`, and round-trip theorems hypothesize the
  documented contract `∀ s, decomp (comp s) = s`.
-/

namespace RustNif

/-- Magic number for NIF file (source constant `MAGIC_NUMBER`). -/
def MAGIC_NUMBER : Nat := 0x4E494600

/-- Source constant `CURRENT_VERSION`. -/
def CURRENT_VERSION : Nat := 0x00010000

/-- Source constant `HEADER_SIZE` (0x14 = 20 bytes). -/
def HEADER_SIZE : Nat := 0x14

/-- Source constant `FEATURE_FLAGS_COMPRESSION` (bit 0). -/
def FEATURE_FLAGS_COMPRESSION : Nat := 0x1

/-- Source struct `Pixel32U { rgba: u32 }`. -/
structure Pixel32U where
  rgba : Nat
deriving DecidableEq, Repr

/-- Source struct `Pixel16U { rgb: u16 }`. -/
structure Pixel16U where
  rgb : Nat
deriving DecidableEq, Repr

/-- Source enum `Pixel`: the four pixel formats, each variant carrying a
packed pixel value. -/
inductive Pixel where
  | RGBA8888 : Pixel32U → Pixel
  | RGB888 : Pixel32U → Pixel
  | RGBA4444 : Pixel16U → Pixel
  | RGB444 : Pixel16U → Pixel
deriving DecidableEq, Repr

/-- Source `Pixel::get_size`: bytes per pixel, 4/4/2/2.  The bodies of
`get_pixel`, `set_pixel`, `PixelIterator::next` and `read_compressed` inline
the identical match; the embedding shares this single definition. -/
def Pixel.get_size : Pixel → Nat
  | .RGBA8888 _ => 4
  | .RGB888 _ => 4
  | .RGBA4444 _ => 2
  | .RGB444 _ => 2

/-- Source `Pixel32U::from_u32`. -/
def Pixel32U.from_u32 (rgba : Nat) : Pixel32U := ⟨rgba⟩

/-- Source `Pixel32U::from_rgba`: packs `a<<24 | b<<16 | g<<8 | r`.
Arguments are u8 values (< 256), so none of the u32 shifts can wrap. -/
def Pixel32U.from_rgba (r g b a : Nat) : Pixel32U :=
  ⟨(a <<< 24) ||| (b <<< 16) ||| (g <<< 8) ||| r⟩

/-- Source `Pixel32U::r`: `(rgba >> 24) as u8`; the `% 256` is the u8 cast. -/
def Pixel32U.r (p : Pixel32U) : Nat := (p.rgba >>> 24) % 256

/-- Source `Pixel32U::g`: `(rgba >> 16) as u8`. -/
def Pixel32U.g (p : Pixel32U) : Nat := (p.rgba >>> 16) % 256

/-- Source `Pixel32U::b`: `(rgba >> 8) as u8`. -/
def Pixel32U.b (p : Pixel32U) : Nat := (p.rgba >>> 8) % 256

/-- Source `Pixel32U::a`: `rgba as u8`. -/
def Pixel32U.a (p : Pixel32U) : Nat := p.rgba % 256

/-- Source `Pixel32U::set_r`: `(rgba & 0x00FFFFFF) | ((r as u32) << 24)`.
With `r < 256` the u32 shift cannot wrap. -/
def Pixel32U.set_r (p : Pixel32U) (r : Nat) : Pixel32U :=
  ⟨(p.rgba &&& 0x00FFFFFF) ||| (r <<< 24)⟩

/-- Source `Pixel32U::set_g`. -/
def Pixel32U.set_g (p : Pixel32U) (g : Nat) : Pixel32U :=
  ⟨(p.rgba &&& 0xFF00FFFF) ||| (g <<< 16)⟩

/-- Source `Pixel32U::set_b`. -/
def Pixel32U.set_b (p : Pixel32U) (b : Nat) : Pixel32U :=
  ⟨(p.rgba &&& 0xFFFF00FF) ||| (b <<< 8)⟩

/-- Source `Pixel32U::set_a`: `(rgba & 0xFFFFFF00) | (a as u32)`. -/
def Pixel32U.set_a (p : Pixel32U) (a : Nat) : Pixel32U :=
  ⟨(p.rgba &&& 0xFFFFFF00) ||| a⟩

/-- Source `Pixel32U::get`. -/
def Pixel32U.get (p : Pixel32U) : Nat := p.rgba

/-- Source `Pixel16U::from_u16`. -/
def Pixel16U.from_u16 (rgb : Nat) : Pixel16U := ⟨rgb⟩

/-- Source `Pixel16U::new`: `b<<12 | g<<8 | r` in u16 arithmetic.  The u8
argument `b` can be up to 255, so `(b as u16) << 12` wraps mod 2^16. -/
def Pixel16U.new (r g b : Nat) : Pixel16U :=
  ⟨((b <<< 12) % 65536) ||| (g <<< 8) ||| r⟩

/-- Source `Pixel16U::r`: `(rgb >> 12) as u8`. -/
def Pixel16U.r (p : Pixel16U) : Nat := (p.rgb >>> 12) % 256

/-- Source `Pixel16U::g`: `(rgb >> 8) as u8` — the whole high byte, not a
masked nibble. -/
def Pixel16U.g (p : Pixel16U) : Nat := (p.rgb >>> 8) % 256

/-- Source `Pixel16U::b`: `rgb as u8` — the whole low byte. -/
def Pixel16U.b (p : Pixel16U) : Nat := p.rgb % 256

/-- Source `Pixel16U::set_r`: `(rgb & 0x0FFF) | ((r as u16) << 12)`; the u16
shift wraps mod 2^16 (`r` is a u8, up to 255). -/
def Pixel16U.set_r (p : Pixel16U) (r : Nat) : Pixel16U :=
  ⟨(p.rgb &&& 0x0FFF) ||| ((r <<< 12) % 65536)⟩

/-- Source `Pixel16U::set_g`: `(rgb & 0xF0FF) | ((g as u16) << 8)`; for a u8
argument the shift cannot wrap. -/
def Pixel16U.set_g (p : Pixel16U) (g : Nat) : Pixel16U :=
  ⟨(p.rgb &&& 0xF0FF) ||| (g <<< 8)⟩

/-- Source `Pixel16U::set_b`: `(rgb & 0xFFF0) | ((b as u16) << 0)`. -/
def Pixel16U.set_b (p : Pixel16U) (b : Nat) : Pixel16U :=
  ⟨(p.rgb &&& 0xFFF0) ||| b⟩

/-- Source `Pixel16U::get`. -/
def Pixel16U.get (p : Pixel16U) : Nat := p.rgb

/-- Source struct `Header`.  `frame_rate` is the raw bit pattern of the `f32`
field (see the module docstring). -/
structure Header where
  width : Nat
  height : Nat
  pixel_format : Pixel
  frame_count : Nat
  frame_rate : Nat
deriving DecidableEq, Repr

/-- Source struct `Frame { data: Vec<u8> }`. -/
structure Frame where
  data : List Nat
deriving DecidableEq, Repr

/-- Source `Frame::new`: a zero-filled buffer of
`width * height * pixel_format.get_size()` bytes. -/
def Frame.new (header : Header) : Frame :=
  ⟨List.replicate (header.width * header.height * header.pixel_format.get_size) 0⟩

/-- Source `Frame::from`. -/
def Frame.from_data (data : List Nat) : Frame := ⟨data⟩

/-- Rust slice indexing `&data[a..b]`: panics (here `none`) unless
`a ≤ b ∧ b ≤ data.len()`. -/
def sliceRange (data : List Nat) (a b : Nat) : Option (List Nat) :=
  if a ≤ b ∧ b ≤ data.length then some ((data.drop a).take (b - a)) else none

/-- `u32::from_be_bytes` / `u16::from_be_bytes` on a byte list. -/
def beToNat (l : List Nat) : Nat := l.foldl (fun acc b => acc * 256 + b) 0

/-- `u32::to_be_bytes`. -/
def u32be (v : Nat) : List Nat :=
  [v / 16777216 % 256, v / 65536 % 256, v / 256 % 256, v % 256]

/-- `u32::to_le_bytes`. -/
def u32le (v : Nat) : List Nat :=
  [v % 256, v / 256 % 256, v / 65536 % 256, v / 16777216 % 256]

/-- `u16::to_le_bytes`. -/
def u16le (v : Nat) : List Nat :=
  [v % 256, v / 256 % 256]

/-- The decode step of `Frame::get_pixel` / `PixelIterator::next`: the slice
is reconstructed with `from_be_bytes` and wrapped in the format variant of
the header. -/
def decodePixelBE (fmt : Pixel) (bytes : List Nat) : Pixel :=
  match fmt with
  | .RGBA8888 _ => .RGBA8888 (Pixel32U.from_u32 (beToNat bytes))
  | .RGB888 _ => .RGB888 (Pixel32U.from_u32 (beToNat bytes))
  | .RGBA4444 _ => .RGBA4444 (Pixel16U.from_u16 (beToNat bytes))
  | .RGB444 _ => .RGB444 (Pixel16U.from_u16 (beToNat bytes))

/-- The encode step of `Frame::set_pixel`: `val.get().to_le_bytes()` on the
packed value carried by the pixel argument (4 bytes for the 32-bit variants,
2 for the 16-bit ones). -/
def encodePixelLE : Pixel → List Nat
  | .RGBA8888 v => u32le v.get
  | .RGB888 v => u32le v.get
  | .RGBA4444 v => u16le v.get
  | .RGB444 v => u16le v.get

/-- Source `Frame::get_pixel`.  The offset arithmetic is u32 and wraps mod
2^32 at every step; the slice is read big-endian.  No coordinate bounds
check is performed by the source. -/
def Frame.get_pixel (f : Frame) (x y : Nat) (header : Header) : Option Pixel :=
  let pixel_size := header.pixel_format.get_size
  let pixel_offset := ((y * header.width) % 4294967296 + x) % 4294967296 * pixel_size % 4294967296
  match sliceRange f.data pixel_offset ((pixel_offset + pixel_size) % 4294967296) with
  | none => none
  | some bytes => some (decodePixelBE header.pixel_format bytes)

/-- Source `Frame::set_pixel`.  Same offset arithmetic as `get_pixel`; the
pixel argument is encoded little-endian and copied into the slice.
`copy_from_slice` panics (`none`) if the encoded length differs from the
slice length. -/
def Frame.set_pixel (f : Frame) (x y : Nat) (pixel : Pixel) (header : Header) : Option Frame :=
  let pixel_size := header.pixel_format.get_size
  let pixel_offset := ((y * header.width) % 4294967296 + x) % 4294967296 * pixel_size % 4294967296
  let b := (pixel_offset + pixel_size) % 4294967296
  if pixel_offset ≤ b ∧ b ≤ f.data.length then
    let enc := encodePixelLE pixel
    if enc.length = b - pixel_offset then
      some ⟨f.data.take pixel_offset ++ enc ++ f.data.drop b⟩
    else none
  else none

/-- One call of `PixelIterator::next` at state `current_pixel`: slices the
buffer first (panicking, `none`, if the range is out of the buffer), then
increments the counter and yields the decoded pixel only when the
incremented counter is still `< width * height`. -/
def pixIterNext (frame : Frame) (header : Header) (current_pixel : Nat) :
    Option (Option Pixel × Nat) :=
  let pixel_size := header.pixel_format.get_size
  let pixel_offset := current_pixel * pixel_size % 4294967296
  match sliceRange frame.data pixel_offset ((pixel_offset + pixel_size) % 4294967296) with
  | none => none
  | some bytes =>
    if (current_pixel + 1) % 4294967296 < (header.width * header.height) % 4294967296 then
      some (some (decodePixelBE header.pixel_format bytes), (current_pixel + 1) % 4294967296)
    else
      some (none, (current_pixel + 1) % 4294967296)

/-- Driving `PixelIterator` to exhaustion: repeatedly call `next`, collecting
the yielded pixels, until it returns `None` (outer `none` = a panic inside
`next`; fuel only guarantees termination of the recursion). -/
def pixIterRun (frame : Frame) (header : Header) : Nat → Nat → Option (List Pixel)
  | 0, _ => none
  | fuel + 1, cur =>
    match pixIterNext frame header cur with
    | none => none
    | some (none, _) => some []
    | some (some p, cur2) => (pixIterRun frame header fuel cur2).map (p :: ·)

/-- Source `PixelIterator::new` starts at `current_pixel = 0`; iterating it
to exhaustion (with enough fuel for `width * height` yields). -/
def Frame.iter_pixels (f : Frame) (header : Header) : Option (List Pixel) :=
  pixIterRun f header (header.width * header.height + 1) 0

/-- Source struct `Nif`: the container. -/
structure Nif where
  version : Nat
  features : Nat
  header : Header
  frames : List Frame
deriving DecidableEq, Repr

/-- Source `Nif::new_default`. -/
def Nif.new_default : Nif :=
  ⟨CURRENT_VERSION, 0, ⟨0, 0, .RGBA8888 ⟨0⟩, 0, 0⟩, []⟩

/-- Source `Nif::new`: stores the caller-supplied header unchanged (in
particular its `frame_count`), clears the feature flags and starts with no
frames. -/
def Nif.new (header : Header) : Nif :=
  ⟨CURRENT_VERSION, 0, header, []⟩

/-- Source `Nif::new_empty_frame`: increments `header.frame_count` (u32, so
mod 2^32) and then pushes `Frame::new` of the updated header. -/
def Nif.new_empty_frame (c : Nif) : Nif :=
  let hd := { c.header with frame_count := (c.header.frame_count + 1) % 4294967296 }
  { c with header := hd, frames := c.frames ++ [Frame.new hd] }

/-- Spec-side driver: `n` successive `new_empty_frame` calls. -/
def Nif.iterate_empty : Nat → Nif → Nif
  | 0, c => c
  | n + 1, c => Nif.iterate_empty n c.new_empty_frame

/-- The pixel format code written by `Nif::write` for each variant. -/
def Pixel.formatCode : Pixel → Nat
  | .RGBA8888 _ => 0
  | .RGB888 _ => 1
  | .RGBA4444 _ => 2
  | .RGB444 _ => 3

/-- The pixel format parse in `Nif::read_from_file`: codes 0..3 build the
variant with a zero payload (`0.into()`); anything else panics
("Invalid pixel format."). -/
def parsePixelFormat (code : Nat) : Option Pixel :=
  match code with
  | 0 => some (.RGBA8888 ⟨0⟩)
  | 1 => some (.RGB888 ⟨0⟩)
  | 2 => some (.RGBA4444 ⟨0⟩)
  | 3 => some (.RGB444 ⟨0⟩)
  | _ => none

/-- The body written by `write_uncompressed` / fed to the gzip encoder by
`write_compressed`: all frame buffers concatenated in frame order. -/
def framesBody (frames : List Frame) : List Nat :=
  frames.foldr (fun fr acc => fr.data ++ acc) []

/-- Source `Nif::write`: magic, version, the `features` argument (not the
stored member), the 20-byte header (all big-endian), then the body, gzipped
when the compression bit of `features` is set.  `comp` abstracts the
external gzip encoder. -/
def Nif.write (comp : List Nat → List Nat) (c : Nif) (features : Nat) : List Nat :=
  let header_buf :=
    u32be c.header.width ++ u32be c.header.height ++
    u32be c.header.pixel_format.formatCode ++ u32be c.header.frame_count ++
    u32be c.header.frame_rate
  let body := framesBody c.frames
  u32be MAGIC_NUMBER ++ u32be c.version ++ u32be features ++ header_buf ++
    (if features &&& FEATURE_FLAGS_COMPRESSION ≠ 0 then comp body else body)

/-- Error kinds of `read`.  The source signals these conditions by panicking
with distinct messages ("Invalid magic number…", "Invalid version…",
"Invalid pixel format.") or by `unwrap` on a short read (`ioError`). -/
inductive ReadErr where
  | invalidMagic
  | unsupportedVersion
  | unsupportedPixelFormat
  | ioError
deriving DecidableEq, Repr

/-- The frame loop of `Nif::read_compressed`: read `n` slices of `frameLen`
bytes from the decompressed stream; a short stream panics (`none`). -/
def readFrames (stream : List Nat) (frameLen : Nat) : Nat → Option (List Frame)
  | 0 => some []
  | n + 1 =>
    if frameLen ≤ stream.length then
      (readFrames (stream.drop frameLen) frameLen n).map (fun fs => ⟨stream.take frameLen⟩ :: fs)
    else none

/-- Source `Nif::read_from_file` (with `read_compressed` and the stub
`read_uncompressed` inlined at the final dispatch).  `decomp` abstracts the
external gzip decoder; `self` is the container being read into.  Note that
`read_uncompressed` has an empty body (`Ok(())`): the uncompressed branch
reads no frame data at all.  `read_compressed` pushes the decoded frames
onto the existing `self.frames`. -/
def Nif.read_from_file (decomp : List Nat → List Nat) (self : Nif) (file : List Nat) :
    Except ReadErr Nif :=
  if file.length < 4 then .error .ioError else
  if beToNat (file.take 4) ≠ MAGIC_NUMBER then .error .invalidMagic else
  if file.length < 8 then .error .ioError else
  if CURRENT_VERSION < beToNat ((file.drop 4).take 4) then .error .unsupportedVersion else
  if file.length < 12 then .error .ioError else
  if file.length < 32 then .error .ioError else
  let version := beToNat ((file.drop 4).take 4)
  let feature_flags := beToNat ((file.drop 8).take 4)
  let header_buf := (file.drop 12).take 20
  match parsePixelFormat (beToNat ((header_buf.drop 8).take 4)) with
  | none => .error .unsupportedPixelFormat
  | some fmt =>
    let header : Header :=
      ⟨beToNat (header_buf.take 4), beToNat ((header_buf.drop 4).take 4), fmt,
        beToNat ((header_buf.drop 12).take 4), beToNat ((header_buf.drop 16).take 4)⟩
    if feature_flags &&& FEATURE_FLAGS_COMPRESSION ≠ 0 then
      let stream := decomp (file.drop 32)
      let data_per_frame := header.width * header.height * header.pixel_format.get_size
      match readFrames stream data_per_frame header.frame_count with
      | none => .error .ioError
      | some fs =>
        .ok { self with version := version, features := feature_flags, header := header,
                        frames := self.frames ++ fs }
    else
      .ok { self with version := version, features := feature_flags, header := header }

/-- Field-for-field equality of the spec Header record.  The spec data model
(§3) has `pixel_format : PixelFormat`, the pure four-variant format; in the
source the `Pixel` enum additionally carries a vestigial packed value, which
is not a header field, so the format is compared by variant. -/
def headerSpecEq (h1 h2 : Header) : Prop :=
  h1.width = h2.width ∧ h1.height = h2.height ∧
  h1.pixel_format.formatCode = h2.pixel_format.formatCode ∧
  h1.frame_count = h2.frame_count ∧ h1.frame_rate = h2.frame_rate

instance (h1 h2 : Header) : Decidable (headerSpecEq h1 h2) := by
  unfold headerSpecEq; infer_instance

/-! ### Bit-field helper lemmas

The channel getters and setters of `Pixel32U` / `Pixel16U` all have the shape
`(v &&& mask) ||| (x <<< k)` for the setter and `(v >>> j) % 2 ^ u` for the
getter; the two lemmas below settle reading the written field and reading a
disjoint field. -/

theorem lor_masked_read_same (v x m k w : Nat) (hx : x < 2 ^ w)
    (hm : ∀ i, i < w → m.testBit (k + i) = false) :
    (((v &&& m) ||| (x <<< k)) >>> k) % 2 ^ w = x := by
  apply Nat.eq_of_testBit_eq
  intro i
  rw [Nat.testBit_mod_two_pow, Nat.testBit_shiftRight, Nat.testBit_lor, Nat.testBit_land,
    Nat.testBit_shiftLeft]
  by_cases hi : i < w
  · rw [hm i hi]
    have h2 : k + i - k = i := by omega
    simp [h2, hi]
  · have hxi : x.testBit i = false :=
      Nat.testBit_lt_two_pow (lt_of_lt_of_le hx (Nat.pow_le_pow_right (by norm_num) (by omega)))
    simp [hi, hxi]

theorem lor_masked_read_other (v x m k j w u : Nat) (hx : x < 2 ^ w)
    (hmj : ∀ i, i < u → m.testBit (j + i) = true)
    (hdis : j + u ≤ k ∨ k + w ≤ j) :
    (((v &&& m) ||| (x <<< k)) >>> j) % 2 ^ u = (v >>> j) % 2 ^ u := by
  apply Nat.eq_of_testBit_eq
  intro i
  rw [Nat.testBit_mod_two_pow, Nat.testBit_mod_two_pow, Nat.testBit_shiftRight,
    Nat.testBit_shiftRight, Nat.testBit_lor, Nat.testBit_land, Nat.testBit_shiftLeft]
  by_cases hi : i < u
  · rw [hmj i hi]
    have hsh : (decide (j + i ≥ k) && x.testBit (j + i - k)) = false := by
      rcases hdis with h | h
      · have hlt : ¬(j + i ≥ k) := by omega
        simp [hlt]
      · have hge : j + i ≥ k := by omega
        have hbit : x.testBit (j + i - k) = false :=
          Nat.testBit_lt_two_pow
            (lt_of_lt_of_le hx (Nat.pow_le_pow_right (by norm_num) (by omega)))
        simp [hge, hbit]
    simp [hsh]
  · simp [hi]

/-- C8 counterexample: the claim "reading any other channel returns the value
it had before the set" fails on `Pixel16U`: setting the r channel of the zero
pixel to 1 (in the 4-bit channel range) changes the value read by the `g`
getter from 0 to 16, because `g` returns the whole unmasked high byte
`(rgb >> 8) as u8`, whose high nibble is the r field. -/
theorem C8_counterexample :
    Pixel16U.g (Pixel16U.set_r ⟨0⟩ 1) = 16 ∧ Pixel16U.g ⟨0⟩ = 0 ∧ (1 : Nat) < 16 ∧
      (16 : Nat) ≠ 0 := by
  decide

/-- C8 amended: per-channel get/set isolation holds in full for `Pixel32U`
(each setter writes only its byte, each getter reads only its byte).  For
`Pixel16U` it holds at the level of the 4-bit channel fields (bits 12–15 for
r, 8–11 for g, 0–3 for b): after setting a channel to a value below 16, that
field equals the value set and the other two fields are unchanged.  The raw
`Pixel16U` getters `g` and `b`, however, return whole unmasked bytes (bits
8–15 and 0–7), so the byte read by `g` also contains the r field in its high
nibble — which is what the counterexample exhibits. -/
theorem C8_amended (p : Pixel32U) (q : Pixel16U) (r g b a r4 g4 b4 : Nat)
    (hr : r < 256) (hg : g < 256) (hb : b < 256) (ha : a < 256)
    (hr4 : r4 < 16) (hg4 : g4 < 16) (hb4 : b4 < 16) :
    ((p.set_r r).r = r ∧ (p.set_r r).g = p.g ∧ (p.set_r r).b = p.b ∧ (p.set_r r).a = p.a) ∧
    ((p.set_g g).r = p.r ∧ (p.set_g g).g = g ∧ (p.set_g g).b = p.b ∧ (p.set_g g).a = p.a) ∧
    ((p.set_b b).r = p.r ∧ (p.set_b b).g = p.g ∧ (p.set_b b).b = b ∧ (p.set_b b).a = p.a) ∧
    ((p.set_a a).r = p.r ∧ (p.set_a a).g = p.g ∧ (p.set_a a).b = p.b ∧ (p.set_a a).a = a) ∧
    (((q.set_r r4).rgb >>> 12) % 16 = r4 ∧
      ((q.set_r r4).rgb >>> 8) % 16 = (q.rgb >>> 8) % 16 ∧
      (q.set_r r4).rgb % 16 = q.rgb % 16) ∧
    (((q.set_g g4).rgb >>> 12) % 16 = (q.rgb >>> 12) % 16 ∧
      ((q.set_g g4).rgb >>> 8) % 16 = g4 ∧
      (q.set_g g4).rgb % 16 = q.rgb % 16) ∧
    (((q.set_b b4).rgb >>> 12) % 16 = (q.rgb >>> 12) % 16 ∧
      ((q.set_b b4).rgb >>> 8) % 16 = (q.rgb >>> 8) % 16 ∧
      (q.set_b b4).rgb % 16 = b4) := by
  have hmod : (r4 <<< 12) % 65536 = r4 <<< 12 := by
    have hsh : r4 <<< 12 = r4 * 4096 := by simp [Nat.shiftLeft_eq]
    omega
  refine ⟨⟨?_, ?_, ?_, ?_⟩, ⟨?_, ?_, ?_, ?_⟩, ⟨?_, ?_, ?_, ?_⟩, ⟨?_, ?_, ?_, ?_⟩,
    ⟨?_, ?_, ?_⟩, ⟨?_, ?_, ?_⟩, ⟨?_, ?_, ?_⟩⟩
  · have h := lor_masked_read_same p.rgba r 0x00FFFFFF 24 8 (by simpa using hr) (by decide)
    simpa [Pixel32U.set_r, Pixel32U.r] using h
  · have h := lor_masked_read_other p.rgba r 0x00FFFFFF 24 16 8 8 (by simpa using hr)
      (by decide) (by omega)
    simpa [Pixel32U.set_r, Pixel32U.g] using h
  · have h := lor_masked_read_other p.rgba r 0x00FFFFFF 24 8 8 8 (by simpa using hr)
      (by decide) (by omega)
    simpa [Pixel32U.set_r, Pixel32U.b] using h
  · have h := lor_masked_read_other p.rgba r 0x00FFFFFF 24 0 8 8 (by simpa using hr)
      (by decide) (by omega)
    simpa [Pixel32U.set_r, Pixel32U.a, Nat.shiftRight_zero] using h
  · have h := lor_masked_read_other p.rgba g 0xFF00FFFF 16 24 8 8 (by simpa using hg)
      (by decide) (by omega)
    simpa [Pixel32U.set_g, Pixel32U.r] using h
  · have h := lor_masked_read_same p.rgba g 0xFF00FFFF 16 8 (by simpa using hg) (by decide)
    simpa [Pixel32U.set_g, Pixel32U.g] using h
  · have h := lor_masked_read_other p.rgba g 0xFF00FFFF 16 8 8 8 (by simpa using hg)
      (by decide) (by omega)
    simpa [Pixel32U.set_g, Pixel32U.b] using h
  · have h := lor_masked_read_other p.rgba g 0xFF00FFFF 16 0 8 8 (by simpa using hg)
      (by decide) (by omega)
    simpa [Pixel32U.set_g, Pixel32U.a, Nat.shiftRight_zero] using h
  · have h := lor_masked_read_other p.rgba b 0xFFFF00FF 8 24 8 8 (by simpa using hb)
      (by decide) (by omega)
    simpa [Pixel32U.set_b, Pixel32U.r] using h
  · have h := lor_masked_read_other p.rgba b 0xFFFF00FF 8 16 8 8 (by simpa using hb)
      (by decide) (by omega)
    simpa [Pixel32U.set_b, Pixel32U.g] using h
  · have h := lor_masked_read_same p.rgba b 0xFFFF00FF 8 8 (by simpa using hb) (by decide)
    simpa [Pixel32U.set_b, Pixel32U.b] using h
  · have h := lor_masked_read_other p.rgba b 0xFFFF00FF 8 0 8 8 (by simpa using hb)
      (by decide) (by omega)
    simpa [Pixel32U.set_b, Pixel32U.a, Nat.shiftRight_zero] using h
  · have h := lor_masked_read_other p.rgba a 0xFFFFFF00 0 24 8 8 (by simpa using ha)
      (by decide) (by omega)
    simpa [Pixel32U.set_a, Pixel32U.r, Nat.shiftLeft_zero] using h
  · have h := lor_masked_read_other p.rgba a 0xFFFFFF00 0 16 8 8 (by simpa using ha)
      (by decide) (by omega)
    simpa [Pixel32U.set_a, Pixel32U.g, Nat.shiftLeft_zero] using h
  · have h := lor_masked_read_other p.rgba a 0xFFFFFF00 0 8 8 8 (by simpa using ha)
      (by decide) (by omega)
    simpa [Pixel32U.set_a, Pixel32U.b, Nat.shiftLeft_zero] using h
  · have h := lor_masked_read_same p.rgba a 0xFFFFFF00 0 8 (by simpa using ha) (by decide)
    simpa [Pixel32U.set_a, Pixel32U.a, Nat.shiftLeft_zero, Nat.shiftRight_zero] using h
  · have h := lor_masked_read_same q.rgb r4 0x0FFF 12 4 (by simpa using hr4) (by decide)
    simp only [Pixel16U.set_r, hmod]
    simpa using h
  · have h := lor_masked_read_other q.rgb r4 0x0FFF 12 8 4 4 (by simpa using hr4)
      (by decide) (by omega)
    simp only [Pixel16U.set_r, hmod]
    simpa using h
  · have h := lor_masked_read_other q.rgb r4 0x0FFF 12 0 4 4 (by simpa using hr4)
      (by decide) (by omega)
    simp only [Pixel16U.set_r, hmod]
    simpa [Nat.shiftRight_zero] using h
  · have h := lor_masked_read_other q.rgb g4 0xF0FF 8 12 4 4 (by simpa using hg4)
      (by decide) (by omega)
    simpa [Pixel16U.set_g] using h
  · have h := lor_masked_read_same q.rgb g4 0xF0FF 8 4 (by simpa using hg4) (by decide)
    simpa [Pixel16U.set_g] using h
  · have h := lor_masked_read_other q.rgb g4 0xF0FF 8 0 4 4 (by simpa using hg4)
      (by decide) (by omega)
    simpa [Pixel16U.set_g, Nat.shiftRight_zero] using h
  · have h := lor_masked_read_other q.rgb b4 0xFFF0 0 12 4 4 (by simpa using hb4)
      (by decide) (by omega)
    simpa [Pixel16U.set_b, Nat.shiftLeft_zero] using h
  · have h := lor_masked_read_other q.rgb b4 0xFFF0 0 8 4 4 (by simpa using hb4)
      (by decide) (by omega)
    simpa [Pixel16U.set_b, Nat.shiftLeft_zero] using h
  · have h := lor_masked_read_same q.rgb b4 0xFFF0 0 4 (by simpa using hb4) (by decide)
    simpa [Pixel16U.set_b, Nat.shiftLeft_zero, Nat.shiftRight_zero] using h

/-- Witness for `C8_amended` at a concrete pixel pair and concrete channel
values. -/
theorem C8_amended_witness :
    ((0x12 : Nat) < 256 ∧ (0x34 : Nat) < 256 ∧ (0x56 : Nat) < 256 ∧ (0x78 : Nat) < 256 ∧
      (5 : Nat) < 16 ∧ (6 : Nat) < 16 ∧ (7 : Nat) < 16) ∧
    (((Pixel32U.set_r ⟨0x55667788⟩ 0x12).r = 0x12 ∧
        (Pixel32U.set_r ⟨0x55667788⟩ 0x12).g = Pixel32U.g ⟨0x55667788⟩ ∧
        (Pixel32U.set_r ⟨0x55667788⟩ 0x12).b = Pixel32U.b ⟨0x55667788⟩ ∧
        (Pixel32U.set_r ⟨0x55667788⟩ 0x12).a = Pixel32U.a ⟨0x55667788⟩) ∧
      ((Pixel32U.set_g ⟨0x55667788⟩ 0x34).r = Pixel32U.r ⟨0x55667788⟩ ∧
        (Pixel32U.set_g ⟨0x55667788⟩ 0x34).g = 0x34 ∧
        (Pixel32U.set_g ⟨0x55667788⟩ 0x34).b = Pixel32U.b ⟨0x55667788⟩ ∧
        (Pixel32U.set_g ⟨0x55667788⟩ 0x34).a = Pixel32U.a ⟨0x55667788⟩) ∧
      ((Pixel32U.set_b ⟨0x55667788⟩ 0x56).r = Pixel32U.r ⟨0x55667788⟩ ∧
        (Pixel32U.set_b ⟨0x55667788⟩ 0x56).g = Pixel32U.g ⟨0x55667788⟩ ∧
        (Pixel32U.set_b ⟨0x55667788⟩ 0x56).b = 0x56 ∧
        (Pixel32U.set_b ⟨0x55667788⟩ 0x56).a = Pixel32U.a ⟨0x55667788⟩) ∧
      ((Pixel32U.set_a ⟨0x55667788⟩ 0x78).r = Pixel32U.r ⟨0x55667788⟩ ∧
        (Pixel32U.set_a ⟨0x55667788⟩ 0x78).g = Pixel32U.g ⟨0x55667788⟩ ∧
        (Pixel32U.set_a ⟨0x55667788⟩ 0x78).b = Pixel32U.b ⟨0x55667788⟩ ∧
        (Pixel32U.set_a ⟨0x55667788⟩ 0x78).a = 0x78) ∧
      (((Pixel16U.set_r ⟨0x1234⟩ 5).rgb >>> 12) % 16 = 5 ∧
        ((Pixel16U.set_r ⟨0x1234⟩ 5).rgb >>> 8) % 16 = ((0x1234 : Nat) >>> 8) % 16 ∧
        (Pixel16U.set_r ⟨0x1234⟩ 5).rgb % 16 = (0x1234 : Nat) % 16) ∧
      (((Pixel16U.set_g ⟨0x1234⟩ 6).rgb >>> 12) % 16 = ((0x1234 : Nat) >>> 12) % 16 ∧
        ((Pixel16U.set_g ⟨0x1234⟩ 6).rgb >>> 8) % 16 = 6 ∧
        (Pixel16U.set_g ⟨0x1234⟩ 6).rgb % 16 = (0x1234 : Nat) % 16) ∧
      (((Pixel16U.set_b ⟨0x1234⟩ 7).rgb >>> 12) % 16 = ((0x1234 : Nat) >>> 12) % 16 ∧
        ((Pixel16U.set_b ⟨0x1234⟩ 7).rgb >>> 8) % 16 = ((0x1234 : Nat) >>> 8) % 16 ∧
        (Pixel16U.set_b ⟨0x1234⟩ 7).rgb % 16 = 7)) :=
  ⟨by decide,
    C8_amended ⟨0x55667788⟩ ⟨0x1234⟩ 0x12 0x34 0x56 0x78 5 6 7
      (by decide) (by decide) (by decide) (by decide) (by decide) (by decide) (by decide)⟩

instance {ε α : Type} [DecidableEq ε] [DecidableEq α] : DecidableEq (Except ε α) := fun x y =>
  match x, y with
  | .ok a, .ok b => if h : a = b then isTrue (by rw [h]) else isFalse (by simp [h])
  | .error a, .error b => if h : a = b then isTrue (by rw [h]) else isFalse (by simp [h])
  | .ok _, .error _ => isFalse (by simp)
  | .error _, .ok _ => isFalse (by simp)

/-- C1: evaluation at the failing input.  A consistent 1×1 RGBA8888 container
with one 4-byte frame, written uncompressed (`write(c, 0)`) and read back,
yields a container whose header matches field-for-field but whose frame list
is empty: `read_uncompressed` has an empty body and reads no frame data, so
the round-trip loses every frame. -/
theorem C1_read_uncompressed_stub_eval :
    Nif.read_from_file id Nif.new_default
        (Nif.write id ⟨CURRENT_VERSION, 0, ⟨1, 1, .RGBA8888 ⟨0⟩, 1, 0⟩, [⟨[1, 2, 3, 4]⟩]⟩ 0) =
      .ok ⟨CURRENT_VERSION, 0, ⟨1, 1, .RGBA8888 ⟨0⟩, 1, 0⟩, []⟩ ∧
    ([⟨[1, 2, 3, 4]⟩] : List Frame) ≠ [] ∧
    (Frame.data ⟨[1, 2, 3, 4]⟩).length = 1 * 1 * Pixel.get_size (.RGBA8888 ⟨0⟩) := by
  decide

/-- C2: evaluation at the failing input.  On a 1×1 RGBA8888 frame, writing
the pixel with packed value `0x01000000` (channel accessors r=1, g=b=a=0)
and reading it back returns the pixel with packed value `0x00000001`, whose
r accessor is 0 ≠ 1: `set_pixel` stores little-endian, `get_pixel` reads
big-endian, so channels come back byte-reversed instead of identical. -/
theorem C2_channel_roundtrip_eval :
    Frame.set_pixel ⟨[0, 0, 0, 0]⟩ 0 0 (.RGBA8888 ⟨0x01000000⟩) ⟨1, 1, .RGBA8888 ⟨0⟩, 1, 0⟩ =
      some ⟨[0, 0, 0, 1]⟩ ∧
    Frame.get_pixel ⟨[0, 0, 0, 1]⟩ 0 0 ⟨1, 1, .RGBA8888 ⟨0⟩, 1, 0⟩ =
      some (.RGBA8888 ⟨0x00000001⟩) ∧
    Pixel32U.r ⟨0x01000000⟩ = 1 ∧ Pixel32U.r ⟨0x00000001⟩ = 0 ∧
    Pixel32U.a ⟨0x01000000⟩ = 0 ∧ Pixel32U.a ⟨0x00000001⟩ = 1 := by
  decide

/-- C3: evaluation at the failing input.  `set_pixel` writes the packed
value 1 as the little-endian bytes `[1,0,0,0]`; `get_pixel` at the same
offset reconstructs those bytes big-endian as `0x01000000 ≠ 1`, so the two
directions do not use the same byte order and decode is not the inverse of
encode. -/
theorem C3_byte_order_eval :
    Frame.set_pixel ⟨[0, 0, 0, 0]⟩ 0 0 (.RGBA8888 ⟨1⟩) ⟨1, 1, .RGBA8888 ⟨0⟩, 1, 0⟩ =
      some ⟨[1, 0, 0, 0]⟩ ∧
    Frame.get_pixel ⟨[1, 0, 0, 0]⟩ 0 0 ⟨1, 1, .RGBA8888 ⟨0⟩, 1, 0⟩ =
      some (.RGBA8888 ⟨0x01000000⟩) ∧
    (0x01000000 : Nat) ≠ 1 := by
  decide

/-- C6: evaluation at the failing input.  On a correctly sized 1×1 RGBA8888
frame the pixel iterator, driven to exhaustion, yields the empty list — 0
values instead of `width * height = 1` — because `next` increments
`current_pixel` before comparing it with `width * height` and so drops the
final pixel (in general it yields `width*height - 1` values). -/
theorem C6_iterator_eval :
    Frame.iter_pixels ⟨[0, 0, 0, 0]⟩ ⟨1, 1, .RGBA8888 ⟨0⟩, 1, 0⟩ = some [] ∧
    (1 * 1 : Nat) = 1 ∧
    Frame.iter_pixels ⟨[1, 2, 3, 4, 5, 6, 7, 8, 9, 10, 11, 12, 13, 14, 15, 16]⟩
        ⟨2, 2, .RGBA8888 ⟨0⟩, 1, 0⟩ =
      some [.RGBA8888 ⟨0x01020304⟩, .RGBA8888 ⟨0x05060708⟩, .RGBA8888 ⟨0x090A0B0C⟩] := by
  decide

/-- C4 counterexample: `Nif::new` does not force `frame_count` to 0: handing
it a header with `frame_count = 1` yields (after zero `new_empty_frame`
calls, which the claim allows) a container whose `header.frame_count` is 1
while it holds no frames. -/
theorem C4_counterexample :
    (Nif.new ⟨1, 1, .RGBA8888 ⟨0⟩, 1, 0⟩).header.frame_count = 1 ∧
    (Nif.new ⟨1, 1, .RGBA8888 ⟨0⟩, 1, 0⟩).frames.length = 0 ∧ (1 : Nat) ≠ 0 := by
  decide

/-- Invariant of `new_empty_frame` iteration: starting from any container
whose `frame_count` matches its frame list and whose frames have the
header-derived size, the invariant is preserved (while the u32 counter does
not wrap), and width/height/pixel format never change. -/
theorem iterate_empty_inv (n : Nat) :
    ∀ c : Nif, c.header.frame_count = c.frames.length →
      c.frames.length + n < 4294967296 →
      (∀ fr ∈ c.frames,
        fr.data.length = c.header.width * c.header.height * c.header.pixel_format.get_size) →
      (Nif.iterate_empty n c).header.width = c.header.width ∧
      (Nif.iterate_empty n c).header.height = c.header.height ∧
      (Nif.iterate_empty n c).header.pixel_format = c.header.pixel_format ∧
      (Nif.iterate_empty n c).header.frame_count = (Nif.iterate_empty n c).frames.length ∧
      ∀ fr ∈ (Nif.iterate_empty n c).frames,
        fr.data.length = c.header.width * c.header.height * c.header.pixel_format.get_size := by
  induction n with
  | zero =>
    intro c h1 _ h3
    exact ⟨rfl, rfl, rfl, h1, h3⟩
  | succ n ih =>
    intro c h1 h2 h3
    have hcount : (c.header.frame_count + 1) % 4294967296 = c.frames.length + 1 := by
      rw [h1]
      exact Nat.mod_eq_of_lt (by omega)
    have hstep1 : c.new_empty_frame.header.frame_count = c.new_empty_frame.frames.length := by
      simp [Nif.new_empty_frame, hcount]
    have hstep2 : c.new_empty_frame.frames.length + n < 4294967296 := by
      simp only [Nif.new_empty_frame, List.length_append, List.length_cons, List.length_nil]
      omega
    have hstep3 : ∀ fr ∈ c.new_empty_frame.frames,
        fr.data.length =
          c.new_empty_frame.header.width * c.new_empty_frame.header.height *
            c.new_empty_frame.header.pixel_format.get_size := by
      intro fr hfr
      simp only [Nif.new_empty_frame, List.mem_append, List.mem_singleton] at hfr
      rcases hfr with hfr | hfr
      · exact h3 fr hfr
      · subst hfr
        simp [Frame.new, Nif.new_empty_frame]
    have hiter : Nif.iterate_empty (n + 1) c = Nif.iterate_empty n c.new_empty_frame := rfl
    obtain ⟨hw, hh, hf, hc, hfr⟩ := ih c.new_empty_frame hstep1 hstep2 hstep3
    rw [hiter]
    refine ⟨hw, hh, hf, hc, ?_⟩
    intro fr hmem
    exact hfr fr hmem

/-- C4 amended: `Nif::new` stores the caller-supplied header unchanged
(it does not force `frame_count` to 0).  Provided the caller-supplied header
has `frame_count = 0`, then after any number of `new_empty_frame()` calls
(below the u32 wrap bound 2^32) `header.frame_count` equals the number of
frames held, and every held frame buffer has length
`width * height * bytes_per_pixel(pixel_format)`. -/
theorem C4_amended (h : Header) (n : Nat) (hn : n < 4294967296) (h0 : h.frame_count = 0) :
    (Nif.iterate_empty n (Nif.new h)).header.frame_count =
      (Nif.iterate_empty n (Nif.new h)).frames.length ∧
    ∀ fr ∈ (Nif.iterate_empty n (Nif.new h)).frames,
      fr.data.length = h.width * h.height * h.pixel_format.get_size := by
  have hbase1 : (Nif.new h).header.frame_count = (Nif.new h).frames.length := by
    simp [Nif.new, h0]
  have hbase2 : (Nif.new h).frames.length + n < 4294967296 := by
    simp only [Nif.new, List.length_nil]
    omega
  have hbase3 : ∀ fr ∈ (Nif.new h).frames,
      fr.data.length =
        (Nif.new h).header.width * (Nif.new h).header.height *
          (Nif.new h).header.pixel_format.get_size := by
    intro fr hfr
    simp [Nif.new] at hfr
  obtain ⟨_, _, _, hc, hfr⟩ := iterate_empty_inv n (Nif.new h) hbase1 hbase2 hbase3
  exact ⟨hc, hfr⟩

/-- Witness for `C4_amended`: a 2×1 RGBA8888 header with `frame_count = 0`
and two `new_empty_frame` calls. -/
theorem C4_amended_witness :
    ((2 : Nat) < 4294967296 ∧ Header.frame_count ⟨2, 1, .RGBA8888 ⟨0⟩, 0, 0⟩ = 0) ∧
    ((Nif.iterate_empty 2 (Nif.new ⟨2, 1, .RGBA8888 ⟨0⟩, 0, 0⟩)).header.frame_count =
        (Nif.iterate_empty 2 (Nif.new ⟨2, 1, .RGBA8888 ⟨0⟩, 0, 0⟩)).frames.length ∧
      ∀ fr ∈ (Nif.iterate_empty 2 (Nif.new ⟨2, 1, .RGBA8888 ⟨0⟩, 0, 0⟩)).frames,
        fr.data.length = 2 * 1 * Pixel.get_size (.RGBA8888 ⟨0⟩)) :=
  ⟨⟨by decide, rfl⟩, C4_amended ⟨2, 1, .RGBA8888 ⟨0⟩, 0, 0⟩ 2 (by decide) rfl⟩

/-- C5 counterexample: on a correctly sized 2×2 RGBA8888 frame, the
out-of-range coordinate x = 2 ≥ width does not fail: `get_pixel` succeeds
(returning the pixel stored at the start of the next row) and `set_pixel`
succeeds and modifies the buffer — bytes 8..12, which belong to pixel
(0,1) — instead of failing with `OutOfRange` and leaving the buffer
unmodified. -/
theorem C5_counterexample :
    (2 : Nat) ≥ Header.width ⟨2, 2, .RGBA8888 ⟨0⟩, 1, 0⟩ ∧
    Frame.get_pixel ⟨List.replicate 16 0⟩ 2 0 ⟨2, 2, .RGBA8888 ⟨0⟩, 1, 0⟩ =
      some (.RGBA8888 ⟨0⟩) ∧
    Frame.set_pixel ⟨List.replicate 16 0⟩ 2 0 (.RGBA8888 ⟨0x04030201⟩)
        ⟨2, 2, .RGBA8888 ⟨0⟩, 1, 0⟩ =
      some ⟨[0, 0, 0, 0, 0, 0, 0, 0, 1, 2, 3, 4, 0, 0, 0, 0]⟩ ∧
    (⟨[0, 0, 0, 0, 0, 0, 0, 0, 1, 2, 3, 4, 0, 0, 0, 0]⟩ : Frame) ≠
      ⟨List.replicate 16 0⟩ := by
  decide

/-- C5 amended: `get_pixel` and `set_pixel` perform no coordinate bounds
check and have no `OutOfRange` error: each succeeds exactly when the derived
byte range `(y*width+x)*bpp .. +bpp` fits inside the buffer (for `set_pixel`
with the encoded pixel size matching the format size), irrespective of
whether `x < width` and `y < height`; only an out-of-buffer range makes the
call fail (a panic), and on that path the buffer is untouched (the panic
happens before any write). -/
theorem C5_amended (f : Frame) (header : Header) (x y : Nat) (p : Pixel)
    (hov : (y * header.width + x + 1) * header.pixel_format.get_size < 4294967296)
    (hmatch : (encodePixelLE p).length = header.pixel_format.get_size) :
    ((f.get_pixel x y header).isSome ↔
      (y * header.width + x + 1) * header.pixel_format.get_size ≤ f.data.length) ∧
    ((f.set_pixel x y p header).isSome ↔
      (y * header.width + x + 1) * header.pixel_format.get_size ≤ f.data.length) := by
  have hs : 1 ≤ header.pixel_format.get_size ∧ header.pixel_format.get_size ≤ 4 := by
    cases header.pixel_format <;> simp [Pixel.get_size]
  set s := header.pixel_format.get_size with hsdef
  set A := y * header.width with hA
  have hB1 : A + x + 1 ≤ (A + x + 1) * s := Nat.le_mul_of_pos_right _ (by omega)
  have hBC : (A + x + 1) * s < 4294967296 := hov
  have e1 : A % 4294967296 = A := Nat.mod_eq_of_lt (by omega)
  have e2 : (A % 4294967296 + x) % 4294967296 = A + x := by
    rw [e1]; exact Nat.mod_eq_of_lt (by omega)
  have hBs : (A + x) * s + s = (A + x + 1) * s := by ring
  have e3 : (A + x) * s % 4294967296 = (A + x) * s := by
    apply Nat.mod_eq_of_lt
    have : (A + x) * s ≤ (A + x + 1) * s := Nat.mul_le_mul_right _ (by omega)
    omega
  have e4 : ((A + x) * s + s) % 4294967296 = (A + x) * s + s := by
    rw [hBs]; exact Nat.mod_eq_of_lt hBC
  constructor
  · simp only [Frame.get_pixel, ← hsdef, ← hA, e2, e3, e4, sliceRange]
    by_cases hc : (A + x) * s + s ≤ f.data.length
    · have hcond : (A + x) * s ≤ (A + x) * s + s ∧ (A + x) * s + s ≤ f.data.length :=
        ⟨by omega, hc⟩
      simp [hcond, hc, ← hBs]
    · have hcond : ¬((A + x) * s ≤ (A + x) * s + s ∧ (A + x) * s + s ≤ f.data.length) := by
        omega
      simp only [if_neg hcond]
      simp [← hBs]
      omega
  · simp only [Frame.set_pixel, ← hsdef, ← hA, e2, e3, e4]
    by_cases hc : (A + x) * s + s ≤ f.data.length
    · have hcond : (A + x) * s ≤ (A + x) * s + s ∧ (A + x) * s + s ≤ f.data.length :=
        ⟨by omega, hc⟩
      have hlen : (encodePixelLE p).length = (A + x) * s + s - (A + x) * s := by omega
      simp [hcond, hlen, hc, ← hBs]
    · have hcond : ¬((A + x) * s ≤ (A + x) * s + s ∧ (A + x) * s + s ≤ f.data.length) := by
        omega
      simp only [if_neg hcond]
      simp [← hBs]
      omega

/-- Witness for `C5_amended`: the out-of-range coordinate (2,0) on a 2×2
RGBA8888 frame (range check passes, because the byte range 8..12 is inside
the 16-byte buffer), showing both accessors succeed there. -/
theorem C5_amended_witness :
    ((0 * 2 + 2 + 1) * 4 < 4294967296 ∧
      (encodePixelLE (.RGBA8888 ⟨0x04030201⟩)).length =
        Pixel.get_size (.RGBA8888 (⟨0⟩ : Pixel32U)) ∧
      (0 * 2 + 2 + 1) * 4 ≤ 16) ∧
    (((Frame.get_pixel ⟨List.replicate 16 0⟩ 2 0 ⟨2, 2, .RGBA8888 ⟨0⟩, 1, 0⟩).isSome ↔
        (0 * Header.width ⟨2, 2, .RGBA8888 ⟨0⟩, 1, 0⟩ + 2 + 1) *
            Pixel.get_size (Header.pixel_format ⟨2, 2, .RGBA8888 ⟨0⟩, 1, 0⟩) ≤
          (Frame.data ⟨List.replicate 16 0⟩).length) ∧
      ((Frame.set_pixel ⟨List.replicate 16 0⟩ 2 0 (.RGBA8888 ⟨0x04030201⟩)
            ⟨2, 2, .RGBA8888 ⟨0⟩, 1, 0⟩).isSome ↔
        (0 * Header.width ⟨2, 2, .RGBA8888 ⟨0⟩, 1, 0⟩ + 2 + 1) *
            Pixel.get_size (Header.pixel_format ⟨2, 2, .RGBA8888 ⟨0⟩, 1, 0⟩) ≤
          (Frame.data ⟨List.replicate 16 0⟩).length)) :=
  ⟨by decide,
    C5_amended ⟨List.replicate 16 0⟩ ⟨2, 2, .RGBA8888 ⟨0⟩, 1, 0⟩ 2 0
      (.RGBA8888 ⟨0x04030201⟩) (by decide) (by decide)⟩

/-- C10 confirmed: on a frame whose buffer has the header-derived length
(and whose total byte size stays below the u32 wrap bound), an in-bounds
`set_pixel` with a pixel of the header format succeeds, modifies exactly the
`bytes_per_pixel` bytes at offset `(y*width+x)*bytes_per_pixel` (setting
them to the encoded pixel), and leaves every other byte and the buffer
length unchanged. -/
theorem C10_set_pixel_locality (f : Frame) (header : Header) (x y : Nat) (p : Pixel)
    (hlen : f.data.length = header.width * header.height * header.pixel_format.get_size)
    (hx : x < header.width) (hy : y < header.height)
    (hov : header.width * header.height * header.pixel_format.get_size < 4294967296)
    (hmatch : (encodePixelLE p).length = header.pixel_format.get_size) :
    ∃ f2, f.set_pixel x y p header = some f2 ∧
      f2.data.length = f.data.length ∧
      (∀ i, i < (y * header.width + x) * header.pixel_format.get_size ∨
          (y * header.width + x) * header.pixel_format.get_size +
            header.pixel_format.get_size ≤ i →
        f2.data.getD i 0 = f.data.getD i 0) ∧
      (∀ j, j < header.pixel_format.get_size →
        f2.data.getD ((y * header.width + x) * header.pixel_format.get_size + j) 0 =
          (encodePixelLE p).getD j 0) := by
  set s := header.pixel_format.get_size with hsdef
  set w := header.width with hw
  set ht := header.height with hht
  have hs1 : 1 ≤ s := by
    rw [hsdef]; cases header.pixel_format <;> simp [Pixel.get_size]
  -- the byte range of pixel (x, y) fits inside the buffer
  have hfit : (y * w + x + 1) * s ≤ w * ht * s := by
    have h1 : y * w + x + 1 ≤ (y + 1) * w := by
      have : (y + 1) * w = y * w + w := by ring
      omega
    have h2 : (y + 1) * w ≤ ht * w := Nat.mul_le_mul_right w (by omega)
    have h3 : y * w + x + 1 ≤ w * ht := by
      have : ht * w = w * ht := Nat.mul_comm ht w
      omega
    exact Nat.mul_le_mul_right s h3
  have hBC : (y * w + x + 1) * s < 4294967296 := by omega
  set A := y * w with hA
  have hB1 : A + x + 1 ≤ (A + x + 1) * s := Nat.le_mul_of_pos_right _ (by omega)
  have e1 : A % 4294967296 = A := Nat.mod_eq_of_lt (by omega)
  have e2 : (A % 4294967296 + x) % 4294967296 = A + x := by
    rw [e1]; exact Nat.mod_eq_of_lt (by omega)
  have hBs : (A + x) * s + s = (A + x + 1) * s := by ring
  have e3 : (A + x) * s % 4294967296 = (A + x) * s := by
    apply Nat.mod_eq_of_lt
    have : (A + x) * s ≤ (A + x + 1) * s := Nat.mul_le_mul_right _ (by omega)
    omega
  have e4 : ((A + x) * s + s) % 4294967296 = (A + x) * s + s := by
    rw [hBs]; exact Nat.mod_eq_of_lt hBC
  set off := (A + x) * s with hoff
  have hoffs : off + s ≤ f.data.length := by
    rw [hlen]
    omega
  have hcond : off ≤ off + s ∧ off + s ≤ f.data.length := ⟨by omega, hoffs⟩
  have hlen2 : (encodePixelLE p).length = off + s - off := by omega
  have hsome : f.set_pixel x y p header =
      some ⟨f.data.take off ++ encodePixelLE p ++ f.data.drop (off + s)⟩ := by
    simp only [Frame.set_pixel, ← hsdef, ← hA, e2, e3, e4, ← hoff]
    rw [if_pos hcond, if_pos hlen2]
  refine ⟨⟨f.data.take off ++ encodePixelLE p ++ f.data.drop (off + s)⟩, hsome, ?_, ?_, ?_⟩
  · simp only [List.length_append, List.length_take, List.length_drop]
    omega
  · intro i hi
    simp only [List.getD_eq_getElem?_getD]
    rcases hi with hi | hi
    · have hti : i < (f.data.take off).length := by
        simp only [List.length_take]
        omega
      rw [List.getElem?_append]
      rw [if_pos (by simp only [List.length_append, List.length_take]; omega)]
      rw [List.getElem?_append, if_pos hti]
      rw [List.getElem?_take, if_pos hi]
    · have hlen3 : (f.data.take off ++ encodePixelLE p).length = off + s := by
        simp only [List.length_append, List.length_take]
        omega
      rw [List.getElem?_append_right (by omega : (f.data.take off ++ encodePixelLE p).length ≤ i)]
      rw [hlen3, List.getElem?_drop]
      have : off + s + (i - (off + s)) = i := by omega
      rw [this]
  · intro j hj
    simp only [List.getD_eq_getElem?_getD]
    have hlen3 : (f.data.take off ++ encodePixelLE p).length = off + s := by
      simp only [List.length_append, List.length_take]
      omega
    rw [List.getElem?_append]
    rw [if_pos (by omega : off + j < (f.data.take off ++ encodePixelLE p).length)]
    rw [List.getElem?_append_right (by simp only [List.length_take]; omega :
      (f.data.take off).length ≤ off + j)]
    have : off + j - (f.data.take off).length = j := by
      simp only [List.length_take]
      omega
    rw [this]

/-- Witness for `C10_set_pixel_locality`: setting pixel (1,1) of a 2×2
RGBA8888 frame. -/
theorem C10_set_pixel_locality_witness :
    ((List.replicate 16 0 : List Nat).length =
        2 * 2 * Pixel.get_size (.RGBA8888 (⟨0⟩ : Pixel32U)) ∧
      (1 : Nat) < 2 ∧ 2 * 2 * 4 < 4294967296 ∧
      (encodePixelLE (.RGBA8888 ⟨0x0A0B0C0D⟩)).length =
        Pixel.get_size (.RGBA8888 (⟨0⟩ : Pixel32U))) ∧
    (∃ f2, Frame.set_pixel ⟨List.replicate 16 0⟩ 1 1 (.RGBA8888 ⟨0x0A0B0C0D⟩)
          ⟨2, 2, .RGBA8888 ⟨0⟩, 1, 0⟩ = some f2 ∧
      f2.data.length = (Frame.data ⟨List.replicate 16 0⟩).length ∧
      (∀ i, i < (1 * 2 + 1) * 4 ∨ (1 * 2 + 1) * 4 + 4 ≤ i →
        f2.data.getD i 0 = (Frame.data ⟨List.replicate 16 0⟩).getD i 0) ∧
      (∀ j, j < (4 : Nat) →
        f2.data.getD ((1 * 2 + 1) * 4 + j) 0 =
          (encodePixelLE (.RGBA8888 ⟨0x0A0B0C0D⟩)).getD j 0)) :=
  ⟨by decide,
    C10_set_pixel_locality ⟨List.replicate 16 0⟩ ⟨2, 2, .RGBA8888 ⟨0⟩, 1, 0⟩ 1 1
      (.RGBA8888 ⟨0x0A0B0C0D⟩) (by decide) (by decide) (by decide) (by decide) (by decide)⟩

theorem beToNat_u32be (v : Nat) (h : v < 4294967296) : beToNat (u32be v) = v := by
  simp only [beToNat, u32be, List.foldl]
  omega

theorem u32be_beToNat (a b c d : Nat) (ha : a < 256) (hb : b < 256) (hc : c < 256)
    (hd : d < 256) : u32be (beToNat [a, b, c, d]) = [a, b, c, d] := by
  simp only [beToNat, u32be, List.foldl, List.cons.injEq, and_true]
  refine ⟨?_, ?_, ?_, ?_⟩ <;> omega

theorem parsePixelFormat_none (code : Nat) (h : 4 ≤ code) : parsePixelFormat code = none := by
  match code, h with
  | n + 4, _ => rfl

/-- The pixel-format word of the header block sits at file bytes 20..24. -/
theorem header_buf_fmt (file : List Nat) :
    (((file.drop 12).take 20).drop 8).take 4 = (file.drop 20).take 4 := by
  rw [List.drop_take, List.drop_drop, List.take_take]
  norm_num

/-- C7 confirmed: `read` fails with `InvalidMagic` when the first 4 bytes
differ from the big-endian magic `0x4E494600`; with `UnsupportedVersion`
when the version word (bytes 4..8) exceeds `CURRENT_VERSION`; and with
`UnsupportedPixelFormat` when the pixel-format code (bytes 20..24) is
outside {0,1,2,3} (equivalently, ≥ 4).  On every error path the `Except`
result carries no container, so no partially constructed container is
exposed. -/
theorem C7_read_validation (decomp : List Nat → List Nat) (self : Nif) :
    (∀ file : List Nat, 4 ≤ file.length → (∀ byt ∈ file.take 4, byt < 256) →
      file.take 4 ≠ u32be MAGIC_NUMBER →
      Nif.read_from_file decomp self file = .error .invalidMagic) ∧
    (∀ file : List Nat, 8 ≤ file.length → file.take 4 = u32be MAGIC_NUMBER →
      CURRENT_VERSION < beToNat ((file.drop 4).take 4) →
      Nif.read_from_file decomp self file = .error .unsupportedVersion) ∧
    (∀ file : List Nat, 32 ≤ file.length → file.take 4 = u32be MAGIC_NUMBER →
      beToNat ((file.drop 4).take 4) ≤ CURRENT_VERSION →
      4 ≤ beToNat ((file.drop 20).take 4) →
      Nif.read_from_file decomp self file = .error .unsupportedPixelFormat) := by
  refine ⟨?_, ?_, ?_⟩
  · intro file h4 hbyte hneq
    have hne : beToNat (file.take 4) ≠ MAGIC_NUMBER := by
      intro heq
      match file, h4 with
      | a :: b :: c :: d :: rest, _ =>
        have hta : (a :: b :: c :: d :: rest).take 4 = [a, b, c, d] := rfl
        rw [hta] at heq hneq hbyte
        have ha : a < 256 := hbyte a (by simp)
        have hb : b < 256 := hbyte b (by simp)
        have hc : c < 256 := hbyte c (by simp)
        have hd : d < 256 := hbyte d (by simp)
        have := u32be_beToNat a b c d ha hb hc hd
        rw [heq] at this
        exact hneq this.symm
    simp only [Nif.read_from_file]
    rw [if_neg (by omega), if_pos hne]
  · intro file h8 hmagic hver
    have hmg : beToNat (file.take 4) = MAGIC_NUMBER := by
      rw [hmagic]
      exact beToNat_u32be MAGIC_NUMBER (by norm_num [MAGIC_NUMBER])
    simp only [Nif.read_from_file]
    rw [if_neg (by omega), if_neg (by simp [hmg]), if_neg (by omega), if_pos hver]
  · intro file h32 hmagic hver hfmt
    have hmg : beToNat (file.take 4) = MAGIC_NUMBER := by
      rw [hmagic]
      exact beToNat_u32be MAGIC_NUMBER (by norm_num [MAGIC_NUMBER])
    simp only [Nif.read_from_file]
    rw [if_neg (by omega), if_neg (by simp [hmg]), if_neg (by omega), if_neg (by omega),
      if_neg (by omega), if_neg (by omega), header_buf_fmt,
      parsePixelFormat_none _ hfmt]

/-- Witness for `C7_read_validation`: three concrete 4-, 8- and 32-byte
files triggering each of the three validation errors. -/
theorem C7_read_validation_witness :
    Nif.read_from_file id Nif.new_default [0, 0, 0, 0] = .error .invalidMagic ∧
    Nif.read_from_file id Nif.new_default
        (u32be MAGIC_NUMBER ++ u32be (CURRENT_VERSION + 1)) = .error .unsupportedVersion ∧
    Nif.read_from_file id Nif.new_default
        (u32be MAGIC_NUMBER ++ u32be CURRENT_VERSION ++ u32be 0 ++ u32be 1 ++ u32be 1 ++
          u32be 4 ++ u32be 0 ++ u32be 0) = .error .unsupportedPixelFormat :=
  ⟨(C7_read_validation id Nif.new_default).1 [0, 0, 0, 0] (by decide) (by decide) (by decide),
    (C7_read_validation id Nif.new_default).2.1
      (u32be MAGIC_NUMBER ++ u32be (CURRENT_VERSION + 1)) (by decide) (by decide) (by decide),
    (C7_read_validation id Nif.new_default).2.2
      (u32be MAGIC_NUMBER ++ u32be CURRENT_VERSION ++ u32be 0 ++ u32be 1 ++ u32be 1 ++
        u32be 4 ++ u32be 0 ++ u32be 0) (by decide) (by decide) (by decide) (by decide)⟩

/-- The format variant with a zeroed payload, as reconstructed by the
header parse (`0.into()`). -/
def normalizeFormat : Pixel → Pixel
  | .RGBA8888 _ => .RGBA8888 ⟨0⟩
  | .RGB888 _ => .RGB888 ⟨0⟩
  | .RGBA4444 _ => .RGBA4444 ⟨0⟩
  | .RGB444 _ => .RGB444 ⟨0⟩

theorem parse_formatCode (p : Pixel) :
    parsePixelFormat p.formatCode = some (normalizeFormat p) := by
  cases p <;> rfl

theorem formatCode_normalize (p : Pixel) :
    (normalizeFormat p).formatCode = p.formatCode := by
  cases p <;> rfl

theorem get_size_normalize (p : Pixel) :
    (normalizeFormat p).get_size = p.get_size := by
  cases p <;> rfl

theorem u32be_length (v : Nat) : (u32be v).length = 4 := rfl

theorem u32be_append_take (v : Nat) (rest : List Nat) :
    (u32be v ++ rest).take 4 = u32be v := by
  rw [show (4 : Nat) = (u32be v).length from rfl]
  exact List.take_left _ _

theorem u32be_append_drop (v : Nat) (rest : List Nat) :
    (u32be v ++ rest).drop 4 = rest := by
  rw [show (4 : Nat) = (u32be v).length from rfl]
  exact List.drop_left _ _

/-- Any aligned 4-byte window of the 20-byte header block read at file
offset 12 equals the corresponding direct window of the file. -/
theorem header_sub (file : List Nat) (a : Nat) (h : a + 4 ≤ 20) :
    (((file.drop 12).take 20).drop a).take 4 = (file.drop (12 + a)).take 4 := by
  rw [List.drop_take, List.drop_drop, List.take_take]
  congr 1
  omega

/-- The frame loop of `read_compressed` splits the concatenation of equally
sized frame buffers back into the original frames. -/
theorem readFrames_framesBody (frames : List Frame) (L : Nat)
    (h : ∀ fr ∈ frames, fr.data.length = L) :
    readFrames (framesBody frames) L frames.length = some frames := by
  induction frames with
  | nil => rfl
  | cons fr rest ih =>
    have hfr : fr.data.length = L := h fr (by simp)
    have hrest : ∀ g ∈ rest, g.data.length = L := fun g hg => h g (by simp [hg])
    have hbody : framesBody (fr :: rest) = fr.data ++ framesBody rest := rfl
    have hle : L ≤ (fr.data ++ framesBody rest).length := by
      simp only [List.length_append]
      omega
    have htake : (fr.data ++ framesBody rest).take L = fr.data := by
      rw [← hfr]
      exact List.take_left _ _
    have hdrop : (fr.data ++ framesBody rest).drop L = framesBody rest := by
      rw [← hfr]
      exact List.drop_left _ _
    simp only [List.length_cons, readFrames, hbody, hle, if_pos, htake, hdrop, ih hrest,
      Option.map_some]
    exact congrArg some (by
      cases fr
      rfl)

/-- Compressed write/read round-trip, for any compressor/decompressor pair
satisfying the lossless contract, any initial container, and any container
whose version is readable, whose header words fit u32, whose `frame_count`
matches the frame list, and whose frames have the header-derived length.
The result has the parsed header (format payload zeroed) and the original
frames appended to the initial container's frames. -/
theorem read_of_write_compressed (comp decomp : List Nat → List Nat)
    (hcd : ∀ s2, decomp (comp s2) = s2) (init c : Nif)
    (hver : c.version ≤ CURRENT_VERSION)
    (hwlt : c.header.width < 4294967296) (hhlt : c.header.height < 4294967296)
    (hfclt : c.header.frame_count < 4294967296) (hfrlt : c.header.frame_rate < 4294967296)
    (hfc : c.header.frame_count = c.frames.length)
    (hflen : ∀ fr ∈ c.frames,
      fr.data.length = c.header.width * c.header.height * c.header.pixel_format.get_size) :
    Nif.read_from_file decomp init (Nif.write comp c FEATURE_FLAGS_COMPRESSION) =
      .ok { init with
        version := c.version,
        features := 1,
        header := ⟨c.header.width, c.header.height, normalizeFormat c.header.pixel_format,
          c.header.frame_count, c.header.frame_rate⟩,
        frames := init.frames ++ c.frames } := by
  set file := Nif.write comp c FEATURE_FLAGS_COMPRESSION with hfiledef
  have hverlt : c.version < 4294967296 := by
    have : CURRENT_VERSION < 4294967296 := by norm_num [CURRENT_VERSION]
    omega
  have hfile : file = u32be MAGIC_NUMBER ++ (u32be c.version ++ (u32be 1 ++ (u32be c.header.width ++
      (u32be c.header.height ++ (u32be c.header.pixel_format.formatCode ++
      (u32be c.header.frame_count ++ (u32be c.header.frame_rate ++
      comp (framesBody c.frames)))))))) := by
    rw [hfiledef]
    simp [Nif.write, FEATURE_FLAGS_COMPRESSION, List.append_assoc]
  have hlenf : file.length = 32 + (comp (framesBody c.frames)).length := by
    rw [hfile]
    simp only [List.length_append, u32be_length]
    omega
  have p4 : file.drop 4 = u32be c.version ++ (u32be 1 ++ (u32be c.header.width ++
      (u32be c.header.height ++ (u32be c.header.pixel_format.formatCode ++
      (u32be c.header.frame_count ++ (u32be c.header.frame_rate ++
      comp (framesBody c.frames))))))) := by
    rw [hfile, u32be_append_drop]
  have p8 : file.drop 8 = u32be 1 ++ (u32be c.header.width ++
      (u32be c.header.height ++ (u32be c.header.pixel_format.formatCode ++
      (u32be c.header.frame_count ++ (u32be c.header.frame_rate ++
      comp (framesBody c.frames)))))) := by
    rw [show (8 : Nat) = 4 + 4 from rfl, ← List.drop_drop, p4, u32be_append_drop]
  have p12 : file.drop 12 = u32be c.header.width ++
      (u32be c.header.height ++ (u32be c.header.pixel_format.formatCode ++
      (u32be c.header.frame_count ++ (u32be c.header.frame_rate ++
      comp (framesBody c.frames))))) := by
    rw [show (12 : Nat) = 8 + 4 from rfl, ← List.drop_drop, p8, u32be_append_drop]
  have p16 : file.drop 16 = u32be c.header.height ++ (u32be c.header.pixel_format.formatCode ++
      (u32be c.header.frame_count ++ (u32be c.header.frame_rate ++
      comp (framesBody c.frames)))) := by
    rw [show (16 : Nat) = 12 + 4 from rfl, ← List.drop_drop, p12, u32be_append_drop]
  have p20 : file.drop 20 = u32be c.header.pixel_format.formatCode ++
      (u32be c.header.frame_count ++ (u32be c.header.frame_rate ++
      comp (framesBody c.frames))) := by
    rw [show (20 : Nat) = 16 + 4 from rfl, ← List.drop_drop, p16, u32be_append_drop]
  have p24 : file.drop 24 = u32be c.header.frame_count ++ (u32be c.header.frame_rate ++
      comp (framesBody c.frames)) := by
    rw [show (24 : Nat) = 20 + 4 from rfl, ← List.drop_drop, p20, u32be_append_drop]
  have p28 : file.drop 28 = u32be c.header.frame_rate ++ comp (framesBody c.frames) := by
    rw [show (28 : Nat) = 24 + 4 from rfl, ← List.drop_drop, p24, u32be_append_drop]
  have p32 : file.drop 32 = comp (framesBody c.frames) := by
    rw [show (32 : Nat) = 28 + 4 from rfl, ← List.drop_drop, p28, u32be_append_drop]
  have hmagic : beToNat (file.take 4) = MAGIC_NUMBER := by
    rw [hfile, u32be_append_take]
    exact beToNat_u32be _ (by norm_num [MAGIC_NUMBER])
  have hvereq : beToNat ((file.drop 4).take 4) = c.version := by
    rw [p4, u32be_append_take]
    exact beToNat_u32be _ hverlt
  have hflags : beToNat ((file.drop 8).take 4) = 1 := by
    rw [p8, u32be_append_take]
    exact beToNat_u32be _ (by norm_num)
  have hwidth : beToNat (((file.drop 12).take 20).take 4) = c.header.width := by
    rw [List.take_take, show (4 ⊓ 20 : Nat) = 4 by norm_num, p12, u32be_append_take]
    exact beToNat_u32be _ hwlt
  have hheight : beToNat ((((file.drop 12).take 20).drop 4).take 4) = c.header.height := by
    rw [header_sub file 4 (by norm_num), show (12 + 4 : Nat) = 16 from rfl, p16,
      u32be_append_take]
    exact beToNat_u32be _ hhlt
  have hcode : beToNat ((((file.drop 12).take 20).drop 8).take 4) =
      c.header.pixel_format.formatCode := by
    rw [header_sub file 8 (by norm_num), show (12 + 8 : Nat) = 20 from rfl, p20,
      u32be_append_take]
    exact beToNat_u32be _ (by cases c.header.pixel_format <;> norm_num [Pixel.formatCode])
  have hfcount : beToNat ((((file.drop 12).take 20).drop 12).take 4) =
      c.header.frame_count := by
    rw [header_sub file 12 (by norm_num), show (12 + 12 : Nat) = 24 from rfl, p24,
      u32be_append_take]
    exact beToNat_u32be _ hfclt
  have hfrate : beToNat ((((file.drop 12).take 20).drop 16).take 4) =
      c.header.frame_rate := by
    rw [header_sub file 16 (by norm_num), show (12 + 16 : Nat) = 28 from rfl, p28,
      u32be_append_take]
    exact beToNat_u32be _ hfrlt
  simp only [Nif.read_from_file, hmagic, hvereq, hflags, hwidth, hheight, hcode, hfcount,
    hfrate, p32]
  rw [if_neg (by omega), if_neg (by simp), if_neg (by omega),
    if_neg (by omega : ¬ CURRENT_VERSION < c.version), if_neg (by omega), if_neg (by omega),
    parse_formatCode]
  simp only [get_size_normalize, hcd, hfc,
    if_pos (show (1 : Nat) &&& FEATURE_FLAGS_COMPRESSION ≠ 0 by decide),
    readFrames_framesBody c.frames _ hflen]

/-- C9 counterexample: the claim quantifies over any container whose frames
have the header-derived per-frame length, but does not require
`header.frame_count` to match the number of frames.  A container with
`frame_count = 0` yet one (correctly sized) frame, written with the
compression bit under the lossless compressor/decompressor pair
`(id, id)`, reads back with an empty frame list — the frame is lost, so its
frames do not equal the original frames. -/
theorem C9_counterexample :
    (∀ fr ∈ Nif.frames ⟨CURRENT_VERSION, 0, ⟨1, 1, .RGBA8888 ⟨0⟩, 0, 0⟩, [⟨[9, 9, 9, 9]⟩]⟩,
      fr.data.length = 1 * 1 * Pixel.get_size (.RGBA8888 (⟨0⟩ : Pixel32U))) ∧
    Nif.read_from_file id Nif.new_default
        (Nif.write id ⟨CURRENT_VERSION, 0, ⟨1, 1, .RGBA8888 ⟨0⟩, 0, 0⟩, [⟨[9, 9, 9, 9]⟩]⟩
          FEATURE_FLAGS_COMPRESSION) =
      .ok ⟨CURRENT_VERSION, 1, ⟨1, 1, .RGBA8888 ⟨0⟩, 0, 0⟩, []⟩ ∧
    Nif.frames ⟨CURRENT_VERSION, 0, ⟨1, 1, .RGBA8888 ⟨0⟩, 0, 0⟩, [⟨[9, 9, 9, 9]⟩]⟩ ≠ [] := by
  decide

/-- C9 amended: the compressed round-trip holds for any container whose
`header.frame_count` additionally equals the number of frames held (and
whose version is readable and header words fit u32), for any
compressor/decompressor pair satisfying the lossless contract
`decomp ∘ comp = id`: reading the written file back into a fresh default
container yields a container whose header equals the original header
field-for-field (the format compared as a format, its vestigial payload
zeroed by the parse) and whose frames equal the original frames exactly and
in order. -/
theorem C9_amended (comp decomp : List Nat → List Nat)
    (hcd : ∀ s2, decomp (comp s2) = s2) (c : Nif)
    (hver : c.version ≤ CURRENT_VERSION)
    (hwlt : c.header.width < 4294967296) (hhlt : c.header.height < 4294967296)
    (hfclt : c.header.frame_count < 4294967296) (hfrlt : c.header.frame_rate < 4294967296)
    (hfc : c.header.frame_count = c.frames.length)
    (hflen : ∀ fr ∈ c.frames,
      fr.data.length = c.header.width * c.header.height * c.header.pixel_format.get_size) :
    ∃ c2, Nif.read_from_file decomp Nif.new_default
        (Nif.write comp c FEATURE_FLAGS_COMPRESSION) = .ok c2 ∧
      headerSpecEq c2.header c.header ∧ c2.frames = c.frames := by
  refine ⟨_, read_of_write_compressed comp decomp hcd Nif.new_default c hver hwlt hhlt hfclt
    hfrlt hfc hflen, ?_, ?_⟩
  · exact ⟨rfl, rfl, formatCode_normalize c.header.pixel_format, rfl, rfl⟩
  · simp [Nif.new_default]

/-- Witness for `C9_amended`: the identity pair as lossless compressor and a
consistent one-frame 1×1 RGBA8888 container. -/
theorem C9_amended_witness :
    (∀ s2 : List Nat, id (id s2) = s2) ∧
    (∀ fr ∈ Nif.frames ⟨CURRENT_VERSION, 0, ⟨1, 1, .RGBA8888 ⟨0⟩, 1, 0⟩, [⟨[9, 8, 7, 6]⟩]⟩,
      fr.data.length = 1 * 1 * Pixel.get_size (.RGBA8888 (⟨0⟩ : Pixel32U))) ∧
    ∃ c2, Nif.read_from_file id Nif.new_default
        (Nif.write id ⟨CURRENT_VERSION, 0, ⟨1, 1, .RGBA8888 ⟨0⟩, 1, 0⟩, [⟨[9, 8, 7, 6]⟩]⟩
          FEATURE_FLAGS_COMPRESSION) = .ok c2 ∧
      headerSpecEq c2.header (Header.mk 1 1 (.RGBA8888 ⟨0⟩) 1 0) ∧
      c2.frames = [⟨[9, 8, 7, 6]⟩] :=
  ⟨fun _ => rfl, by decide,
    C9_amended id id (fun _ => rfl)
      ⟨CURRENT_VERSION, 0, ⟨1, 1, .RGBA8888 ⟨0⟩, 1, 0⟩, [⟨[9, 8, 7, 6]⟩]⟩
      (by decide) (by decide) (by decide) (by decide) (by decide) (by decide) (by decide)⟩

end RustNif
